import Mathlib

/-!
# groupmebot: a shallow embedding of `groupmebot.go`

The Go package `groupmebot` is one file.  Its methods on `*GroupMeBot` are
embedded here as Lean functions:

* effects (calls of the logger, of `HandleMessage`, of `SendMessage`, and the
  HTTP POST itself) are recorded in a trace of `Event`s;
* `log.Fatal` (which ends the process) and a runtime panic are outcomes of a
  run, next to a normal return;
* the Go standard library (`regexp`, `encoding/json` decoding, `io/ioutil`,
  `net/http`) is a parameter, the `World`;
* the iteration order of `range b.Hooks`, which Go leaves unspecified, is an
  explicit argument `order`, constrained by `IsRangeOrder`;
* nil values that the code can meet are kept: a nil map, a nil slice, a nil
  `*[]Attachment`, a nil `Logger`.

Diagnostic output (`log.Printf`, `log.Println`) is not part of the trace.
-/

namespace Groupmebot

/-! ## Data model -/

/-- A Go `error` value: `none` is `nil`, `some s` an error with message `s`. -/
abbrev error := Option String

/-- A Go slice: `none` is the nil slice, `some []` the empty non-nil slice. -/
abbrev GoSlice (α : Type) := Option (List α)

/-- A JSON document, as `encoding/json` reads and writes it. -/
inductive Json where
  | null
  | bool (b : Bool)
  | num (n : Int)
  | str (s : String)
  | arr (items : List Json)
  | obj (fields : List (String × Json))

/-- The struct `InboundMessage` (lines 23-37). -/
structure InboundMessage where
  Id : String
  Avatar_url : String
  Name : String
  Sender_id : String
  Sender_type : String
  System : Bool
  Text : String
  Source_guid : String
  Created_at : Int
  User_id : String
  Group_id : String
  Favorited_by : GoSlice String
  Attachments : GoSlice (List (String × Json))

/-- The struct `Attachment` (lines 40-44); the field `Type` is `Type_` here. -/
structure Attachment where
  Type_ : String
  Loci : GoSlice (GoSlice Int)
  UserIds : GoSlice String

/-- The struct `OutboundMessage` (lines 47-51). -/
structure OutboundMessage where
  ID : String
  Text : String
  Attachments : GoSlice Attachment

/-- A responder: the value type `func(InboundMessage) string` of `Hooks`. -/
abbrev Responder := InboundMessage → String

/-- A non-nil Go `map[string]func(InboundMessage) string`: a finite map with
distinct keys. -/
abbrev HookMap := AList (fun _ : String => Responder)

/-- An implementation of the interface `Logger` (lines 55-57).  What
`LogMessage` does is outside the package; a call is recorded in the trace. -/
structure LoggerImpl where
  tag : Nat

/-- The struct `GroupMeBot` (lines 12-21).  `Hooks = none` is the nil map and
`Logger = none` the nil interface value, as in the zero value of the struct. -/
structure GroupMeBot where
  ID : String
  GroupID : String
  Host : String
  Port : String
  TrackBotMessages : Bool
  Server : String
  Hooks : Option HookMap
  Logger : Option LoggerImpl

/-- The part of `*http.Request` the handler reads. -/
structure Request where
  Method : String
  Body : String

/-- The `*http.Response` returned by `http.Post`. -/
structure Response where
  StatusCode : Int

/-! ## Effects and outcomes -/

/-- The observable steps of a run. -/
inductive Event where
  | LogMessage (msg : InboundMessage)
  | HandleMessage (msg : InboundMessage)
  | SendMessage (outMessage : String) (attachments : Option (GoSlice Attachment))
  | Post (url contentType : String) (body : Json)

/-- How a call ends: it returns a value, the process is terminated by
`log.Fatal`, or a runtime panic is raised. -/
inductive Outcome (α : Type) where
  | returned (a : α)
  | fatal
  | panic

/-- A run: the events performed, in order, and the way the run ended. -/
structure Run (α : Type) where
  events : List Event
  outcome : Outcome α

/-- The library functions and the environment the package calls. -/
structure World where
  /-- The function `regexp.Compile`: the compiled matcher, or an error. -/
  Compile : String → Except String (String → Bool)
  /-- The function `ioutil.ReadFile`. -/
  ReadFile : String → Except String String
  /-- The call `json.Unmarshal(file, b)`: the bot as it leaves it, and the error. -/
  Unmarshal : String → GroupMeBot → GroupMeBot × error
  /-- The call `json.NewDecoder(body).Decode(&msg)` on a zero `msg`: the
  message as it leaves it, and the error. -/
  Decode : String → InboundMessage × error
  /-- The function `http.Post` with url, content type and body. -/
  Post : String → String → Json → Except String Response

/-- The messages passed to the logger, in order. -/
def logCalls : List Event → List InboundMessage
  | [] => []
  | Event.LogMessage m :: es => m :: logCalls es
  | _ :: es => logCalls es

/-- The messages passed to `HandleMessage`, in order. -/
def handleCalls : List Event → List InboundMessage
  | [] => []
  | Event.HandleMessage m :: es => m :: handleCalls es
  | _ :: es => handleCalls es

/-- The arguments of the calls of `SendMessage`, in order. -/
def sendCalls : List Event → List (String × Option (GoSlice Attachment))
  | [] => []
  | Event.SendMessage t a :: es => (t, a) :: sendCalls es
  | _ :: es => sendCalls es

/-- The HTTP POSTs performed, in order. -/
def posts : List Event → List (String × String × Json)
  | [] => []
  | Event.Post u c p :: es => (u, c, p) :: posts es
  | _ :: es => posts es

/-! ## Library behaviour used by the package -/

/-- The built-in `len` on a string: its length in bytes. -/
def len (s : String) : Nat := s.utf8ByteSize

/-- The function `regexp.MatchString(pattern, s)`: it compiles the pattern and
returns `(false, err)` when that fails, `(re.MatchString(s), nil)` otherwise. -/
def MatchString (w : World) (pattern s : String) : Bool × error :=
  match w.Compile pattern with
  | .error e => (false, some e)
  | .ok re => (re s, none)

/-- How `json.Marshal` writes a `[]string`: `null` for the nil slice. -/
def marshalStrings : GoSlice String → Json
  | none => Json.null
  | some l => Json.arr (l.map Json.str)

/-- How `json.Marshal` writes a `[]int`. -/
def marshalInts : GoSlice Int → Json
  | none => Json.null
  | some l => Json.arr (l.map Json.num)

/-- How `json.Marshal` writes a `[][]int`. -/
def marshalLoci : GoSlice (GoSlice Int) → Json
  | none => Json.null
  | some l => Json.arr (l.map marshalInts)

/-- How `json.Marshal` writes an `Attachment`, with the keys of its tags. -/
def marshalAttachment (a : Attachment) : Json :=
  Json.obj [("type", Json.str a.Type_), ("loci", marshalLoci a.Loci),
    ("user_ids", marshalStrings a.UserIds)]

/-- How `json.Marshal` writes a `[]Attachment`. -/
def marshalAttachments : GoSlice Attachment → Json
  | none => Json.null
  | some l => Json.arr (l.map marshalAttachment)

/-- The call `json.Marshal(msg)` on an `OutboundMessage`: an object with the
keys of the struct tags; it has no failing case for these field types. -/
def Marshal (msg : OutboundMessage) : Json × error :=
  (Json.obj [("bot_id", Json.str msg.ID), ("text", Json.str msg.Text),
    ("attachments", marshalAttachments msg.Attachments)], none)

/-- The value under a key of a JSON object. -/
def Json.field (key : String) : Json → Option Json
  | Json.obj fields => (fields.find? (fun kv => kv.1 == key)).map (fun kv => kv.2)
  | _ => none

/-! ## The registry as a Go map -/

/-- The entries of a Go map (none for the nil map). -/
def entriesOf : Option HookMap → List (String × Responder)
  | none => []
  | some h => h.entries.map (fun e => (e.1, e.2))

/-- The lookup `Hooks[p]` with its presence flag. -/
def lookupHook : Option HookMap → String → Option Responder
  | none, _ => none
  | some h, p => h.lookup p

/-- The orders in which `range` may yield the entries of a map: each entry
once, in any order. -/
def IsRangeOrder (hooks : Option HookMap) (order : List (String × Responder)) : Prop :=
  order.Perm (entriesOf hooks)

/-! ## The methods of `*GroupMeBot` -/

/-- The method `ConfigureFromJson` (lines 63-79).  The result of
`json.Unmarshal` is dropped by the code; the error returned is the one of
`ReadFile`, which is nil on this path. -/
def GroupMeBot.ConfigureFromJson (w : World) (b : GroupMeBot) (filename : String) :
    Outcome (GroupMeBot × error) :=
  match w.ReadFile filename with
  | .error _ => Outcome.fatal
  | .ok file =>
    let b1 := (w.Unmarshal file b).1
    let b2 := { b1 with Server := b1.Host ++ ":" ++ b1.Port }
    let b3 := { b2 with Hooks := some ∅ }
    Outcome.returned (b3, none)

/-- The method `SendMessage` (lines 81-95). -/
def GroupMeBot.SendMessage (w : World) (b : GroupMeBot) (outMessage : String)
    (attachments : Option (GoSlice Attachment)) : Run (Option Response × error) :=
  let a : GoSlice Attachment :=
    match attachments with
    | some s => s
    | none => some []
  let msg : OutboundMessage := { ID := b.ID, Text := outMessage, Attachments := a }
  match Marshal msg with
  | (_, some err) =>
    { events := [Event.SendMessage outMessage attachments],
      outcome := Outcome.returned (none, some err) }
  | (payload, none) =>
    match w.Post "https://api.groupme.com/v3/bots/post" "application/json" payload with
    | .ok resp =>
      { events := [Event.SendMessage outMessage attachments,
          Event.Post "https://api.groupme.com/v3/bots/post" "application/json" payload],
        outcome := Outcome.returned (some resp, none) }
    | .error e =>
      { events := [Event.SendMessage outMessage attachments,
          Event.Post "https://api.groupme.com/v3/bots/post" "application/json" payload],
        outcome := Outcome.returned (none, some e) }

/-- The method `AddHook` (lines 97-99): an assignment to an entry of a nil
map panics. -/
def GroupMeBot.AddHook (b : GroupMeBot) (trigger : String) (response : Responder) :
    Outcome GroupMeBot :=
  match b.Hooks with
  | none => Outcome.panic
  | some h => Outcome.returned { b with Hooks := some (h.insert trigger response) }

/-- The loop of `HandleMessage` (lines 103-112) over the entries in the order
`range` yields them, from the current value of `resp`: `none` when
`log.Fatal` is reached, else the value of `resp` after the loop. -/
def rangeHooks (w : World) (msg : InboundMessage) :
    List (String × Responder) → String → Option String
  | [], resp => some resp
  | (trig, hook) :: rest, resp =>
    match MatchString w trig msg.Text with
    | (true, _) => rangeHooks w msg rest (hook msg)
    | (false, some _) => none
    | (false, none) => rangeHooks w msg rest resp

/-- The method `HandleMessage` (lines 101-121), with the order of the `range`. -/
def GroupMeBot.HandleMessage (w : World) (b : GroupMeBot)
    (order : List (String × Responder)) (msg : InboundMessage) : Run Unit :=
  match rangeHooks w msg order "" with
  | none => { events := [Event.HandleMessage msg], outcome := Outcome.fatal }
  | some resp =>
    if len resp > 0 then
      let s := b.SendMessage w resp none
      match s.outcome with
      | Outcome.returned (_, none) =>
        { events := Event.HandleMessage msg :: s.events, outcome := Outcome.returned () }
      | Outcome.returned (_, some _) =>
        { events := Event.HandleMessage msg :: s.events, outcome := Outcome.fatal }
      | Outcome.fatal =>
        { events := Event.HandleMessage msg :: s.events, outcome := Outcome.fatal }
      | Outcome.panic =>
        { events := Event.HandleMessage msg :: s.events, outcome := Outcome.panic }
    else { events := [Event.HandleMessage msg], outcome := Outcome.returned () }

/-- The function returned by `Handler` (lines 129-152), applied to a request.
A call of `LogMessage` through a nil `Logger` panics. -/
def GroupMeBot.Handler (w : World) (b : GroupMeBot)
    (order : List (String × Responder)) (req : Request) : Run Unit :=
  if req.Method = "POST" then
    let d := w.Decode req.Body
    let msg : InboundMessage :=
      match d.2 with
      | some _ => { d.1 with Sender_type := "bot" }
      | none => d.1
    if msg.Sender_type ≠ "bot" ∨ b.TrackBotMessages = true then
      match b.Logger with
      | none => { events := [], outcome := Outcome.panic }
      | some _ =>
        let r := b.HandleMessage w order msg
        { events := Event.LogMessage msg :: r.events, outcome := r.outcome }
    else { events := [], outcome := Outcome.returned () }
  else { events := [], outcome := Outcome.returned () }

/-! ## Notions used to state the properties -/

/-- Whether `regexp.MatchString` reports a match of the pattern in the text. -/
def matched (w : World) (pattern s : String) : Bool := (MatchString w pattern s).1

/-- Whether the pattern is a valid regular expression (it compiles). -/
def compiles (w : World) (pattern : String) : Bool :=
  match w.Compile pattern with
  | .ok _ => true
  | .error _ => false

/-- In the words of the specification: the last entry, in iteration order,
whose pattern matches the text. -/
def lastMatching (w : World) (order : List (String × Responder)) (text : String) :
    Option (String × Responder) :=
  (order.filter (fun e => matched w e.1 text)).getLast?

/-- The payload of a send of `text` without attachments by bot `b`. -/
def textPayload (b : GroupMeBot) (text : String) : Json :=
  Json.obj [("bot_id", Json.str b.ID), ("text", Json.str text), ("attachments", Json.arr [])]

/-! ## A concrete world for examples -/

/-- The characters the example engine takes literally. -/
def isLiteral (c : Char) : Bool := c.isAlphanum || c == ' '

/-- An example regular-expression engine: a run of letters, digits and
blanks, optionally anchored by a leading `^` and a trailing `$`, with the
meaning the `regexp` package gives it; every other pattern is rejected. -/
def literalCompile (p : String) : Except String (String → Bool) :=
  let cs := p.data
  let atStart := cs.head? == some '^'
  let cs1 := if atStart then cs.drop 1 else cs
  let atEnd := cs1.getLast? == some '$'
  let lit := if atEnd then cs1.dropLast else cs1
  if lit.all isLiteral then
    .ok (fun s =>
      match atStart, atEnd with
      | true, true => s.data == lit
      | true, false => lit.isPrefixOf s.data
      | false, true => lit.isSuffixOf s.data
      | false, false => s.data.tails.any (fun t => lit.isPrefixOf t))
  else .error "error parsing regexp"

/-- The zero value of `InboundMessage`. -/
def zeroMessage : InboundMessage :=
  { Id := "", Avatar_url := "", Name := "", Sender_id := "", Sender_type := "",
    System := false, Text := "", Source_guid := "", Created_at := 0, User_id := "",
    Group_id := "", Favorited_by := none, Attachments := none }

/-- A message of a user with text `hi there`. -/
def hiThere : InboundMessage :=
  { zeroMessage with Name := "ann", Sender_type := "user", Text := "hi there" }

/-- A message sent by a bot with text `hi there`. -/
def botHiThere : InboundMessage :=
  { zeroMessage with Name := "bot", Sender_type := "bot", Text := "hi there" }

/-- The zero value of the struct `GroupMeBot`. -/
def zeroBot : GroupMeBot :=
  { ID := "", GroupID := "", Host := "", Port := "", TrackBotMessages := false,
    Server := "", Hooks := none, Logger := none }

/-- The text of a well-formed configuration file, with keys `bot_id`,
`group_id`, `host` and `port`. -/
def cfgText : String :=
  "\x7b\x22bot_id\x22:\x22bot1\x22,\x22group_id\x22:\x22g1\x22,\x22host\x22:\x22localhost\x22,\x22port\x22:\x228080\x22\x7d"

/-- The request body of the message `hiThere`. -/
def userBody : String :=
  "\x7b\x22name\x22:\x22ann\x22,\x22sender_type\x22:\x22user\x22,\x22text\x22:\x22hi there\x22\x7d"

/-- The request body of the message `botHiThere`. -/
def botBody : String :=
  "\x7b\x22name\x22:\x22bot\x22,\x22sender_type\x22:\x22bot\x22,\x22text\x22:\x22hi there\x22\x7d"

/-- An example world: the example engine, one readable well-formed
configuration file, one readable file that is not JSON, request bodies that
decode to the example messages, and a network that accepts every POST. -/
def exampleWorld : World where
  Compile := literalCompile
  ReadFile := fun name =>
    if name = "bot_cfg.json" then .ok cfgText
    else if name = "broken.json" then .ok "not json"
    else .error "no such file"
  Unmarshal := fun file b =>
    if file = cfgText then
      ({ b with ID := "bot1", GroupID := "g1", Host := "localhost", Port := "8080" }, none)
    else (b, some "invalid character")
  Decode := fun body =>
    if body = userBody then (hiThere, none)
    else if body = botBody then (botHiThere, none)
    else (zeroMessage, some "invalid character")
  Post := fun _ _ _ => .ok { StatusCode := 202 }

/-- The responder that always answers `hello`. -/
def sayHello : Responder := fun _ => "hello"

/-- The responder that always answers `goodbye`. -/
def sayGoodbye : Responder := fun _ => "goodbye"

/-- The registry of the specification's example: `^hi` answers `hello` and
`bye$` answers `goodbye`. -/
def exampleHooks : HookMap :=
  AList.insert "bye$" sayGoodbye (AList.insert "^hi" sayHello ∅)

/-- A configured bot with a logger and the example registry. -/
def exampleBot : GroupMeBot :=
  { ID := "bot1", GroupID := "g1", Host := "localhost", Port := "8080",
    TrackBotMessages := false, Server := "localhost:8080",
    Hooks := some exampleHooks, Logger := some { tag := 0 } }

/-- The bot that `ConfigureFromJson` leaves when the zero value of the struct
loads the example configuration file: no `Logger` has been installed. -/
def configuredBot : GroupMeBot :=
  { ID := "bot1", GroupID := "g1", Host := "localhost", Port := "8080",
    TrackBotMessages := false, Server := "localhost:8080",
    Hooks := some ∅, Logger := none }

/-- The example bot with tracking of bot messages switched on. -/
def trackingBot : GroupMeBot := { exampleBot with TrackBotMessages := true }

theorem len_pos_iff (s : String) : 0 < len s ↔ s ≠ "" := by
  rcases s with ⟨cs⟩
  cases cs with
  | nil => simp [len, String.utf8ByteSize, String.utf8ByteSize.go]
  | cons c cs =>
    have hc := Char.utf8Size_pos c
    have hne : (String.mk (c :: cs)) ≠ "" := by
      intro h
      have := congrArg String.data h
      simp at this
    simp only [len, String.utf8ByteSize, String.utf8ByteSize.go, ne_eq, hne, not_false_eq_true,
      iff_true]
    omega

theorem matchString_of_compiles (w : World) (p s : String)
    (h : compiles w p = true) : MatchString w p s = (matched w p s, none) := by
  unfold compiles at h
  unfold matched MatchString
  cases hc : w.Compile p with
  | error e => rw [hc] at h; simp at h
  | ok re => rfl

/-- With patterns that all compile the loop ends with the response of the last
matching entry, or with the initial value when no entry matches. -/
theorem rangeHooks_of_compiles (w : World) (msg : InboundMessage) :
    ∀ (order : List (String × Responder)) (resp : String),
      (∀ e ∈ order, compiles w e.1 = true) →
      rangeHooks w msg order resp =
        some (match lastMatching w order msg.Text with
              | some e => e.2 msg
              | none => resp) := by
  intro order
  induction order with
  | nil => intro resp _; simp [rangeHooks, lastMatching]
  | cons e rest ih =>
    intro resp hall
    obtain ⟨trig, hook⟩ := e
    have hc : compiles w trig = true := hall (trig, hook) (List.mem_cons_self _ _)
    have hrest : ∀ e ∈ rest, compiles w e.1 = true :=
      fun e he => hall e (List.mem_cons_of_mem _ he)
    have hm := matchString_of_compiles w trig msg.Text hc
    unfold rangeHooks
    rw [hm]
    cases hmt : matched w trig msg.Text with
    | true =>
      simp only
      rw [ih (hook msg) hrest]
      unfold lastMatching
      simp only [List.filter_cons, hmt, if_true]
      cases hf : List.filter (fun e => matched w e.1 msg.Text) rest with
      | nil => simp
      | cons x xs =>
        have hne : (x :: xs).getLast? = some ((x :: xs).getLast (List.cons_ne_nil _ _)) :=
          List.getLast?_eq_getLast _ _
        simp only [List.getLast?_cons_cons, hne]
    | false =>
      simp only
      rw [ih resp hrest]
      unfold lastMatching
      simp [List.filter_cons, hmt]

theorem SendMessage_events (w : World) (b : GroupMeBot) (t : String)
    (atts : Option (GoSlice Attachment)) :
    (b.SendMessage w t atts).events =
      [Event.SendMessage t atts,
       Event.Post "https://api.groupme.com/v3/bots/post" "application/json"
         (Marshal { ID := b.ID, Text := t, Attachments := atts.getD (some []) }).1] := by
  unfold GroupMeBot.SendMessage
  cases atts with
  | none =>
    simp only [Marshal, Option.getD_none]
    cases w.Post "https://api.groupme.com/v3/bots/post" "application/json"
      (Json.obj [("bot_id", Json.str b.ID), ("text", Json.str t),
        ("attachments", marshalAttachments (some []))]) <;> rfl
  | some s =>
    simp only [Marshal, Option.getD_some]
    cases w.Post "https://api.groupme.com/v3/bots/post" "application/json"
      (Json.obj [("bot_id", Json.str b.ID), ("text", Json.str t),
        ("attachments", marshalAttachments s)]) <;> rfl

theorem SendMessage_returns (w : World) (b : GroupMeBot) (t : String)
    (atts : Option (GoSlice Attachment)) :
    ∃ r, (b.SendMessage w t atts).outcome = Outcome.returned r := by
  unfold GroupMeBot.SendMessage
  cases atts with
  | none =>
    simp only [Marshal]
    cases w.Post "https://api.groupme.com/v3/bots/post" "application/json"
      (Json.obj [("bot_id", Json.str b.ID), ("text", Json.str t),
        ("attachments", marshalAttachments (some []))]) <;> exact ⟨_, rfl⟩
  | some s =>
    simp only [Marshal]
    cases w.Post "https://api.groupme.com/v3/bots/post" "application/json"
      (Json.obj [("bot_id", Json.str b.ID), ("text", Json.str t),
        ("attachments", marshalAttachments s)]) <;> exact ⟨_, rfl⟩

/-- The trace of `HandleMessage` when the loop ends normally with `resp`. -/
theorem HandleMessage_events_of_loop (w : World) (b : GroupMeBot)
    (order : List (String × Responder)) (msg : InboundMessage) (resp : String)
    (h : rangeHooks w msg order "" = some resp) :
    (b.HandleMessage w order msg).events =
      if resp = "" then [Event.HandleMessage msg]
      else [Event.HandleMessage msg, Event.SendMessage resp none,
        Event.Post "https://api.groupme.com/v3/bots/post" "application/json"
          (textPayload b resp)] := by
  unfold GroupMeBot.HandleMessage
  rw [h]
  by_cases hr : resp = ""
  · subst hr
    have hlen : ¬ (len "" > 0) := fun hpos => (len_pos_iff "").1 hpos rfl
    simp only [hlen, if_true, if_false]
  · have hpos : len resp > 0 := (len_pos_iff resp).2 hr
    simp only [hpos, hr, if_true, if_false]
    have hev := SendMessage_events w b resp none
    obtain ⟨r, hret⟩ := SendMessage_returns w b resp none
    obtain ⟨r1, r2⟩ := r
    rw [hret]
    cases r2 with
    | none => simp only [hev]; rfl
    | some e => simp only [hev]; rfl

/-- The trace of `HandleMessage` when the loop reaches `log.Fatal`. -/
theorem HandleMessage_of_loop_fatal (w : World) (b : GroupMeBot)
    (order : List (String × Responder)) (msg : InboundMessage)
    (h : rangeHooks w msg order "" = none) :
    b.HandleMessage w order msg =
      { events := [Event.HandleMessage msg], outcome := Outcome.fatal } := by
  unfold GroupMeBot.HandleMessage
  rw [h]

/-- Every run of `HandleMessage` records its own call once, first, and never
a call of the logger. -/
theorem HandleMessage_calls (w : World) (b : GroupMeBot)
    (order : List (String × Responder)) (msg : InboundMessage) :
    (∃ rest, (b.HandleMessage w order msg).events = Event.HandleMessage msg :: rest) ∧
    handleCalls (b.HandleMessage w order msg).events = [msg] ∧
    logCalls (b.HandleMessage w order msg).events = [] := by
  cases h : rangeHooks w msg order "" with
  | none =>
    rw [HandleMessage_of_loop_fatal w b order msg h]
    exact ⟨⟨[], rfl⟩, rfl, rfl⟩
  | some resp =>
    rw [HandleMessage_events_of_loop w b order msg resp h]
    by_cases hr : resp = ""
    · simp only [hr, if_true]
      exact ⟨⟨[], rfl⟩, rfl, rfl⟩
    · simp only [hr, if_false]
      exact ⟨⟨_, rfl⟩, rfl, rfl⟩

theorem mem_entriesOf_iff (hooks : Option HookMap) (p : String) (f : Responder) :
    (p, f) ∈ entriesOf hooks ↔ lookupHook hooks p = some f := by
  cases hooks with
  | none => simp [entriesOf, lookupHook]
  | some h =>
    simp only [entriesOf, lookupHook, List.mem_map]
    constructor
    · rintro ⟨⟨k, v⟩, hmem, heq⟩
      simp only [Prod.mk.injEq] at heq
      obtain ⟨rfl, rfl⟩ := heq
      exact AList.mem_lookup_iff.2 hmem
    · intro hl
      exact ⟨⟨p, f⟩, AList.mem_lookup_iff.1 hl, rfl⟩

theorem entriesOf_keys_nodup (hooks : Option HookMap) :
    ((entriesOf hooks).map Prod.fst).Nodup := by
  cases hooks with
  | none => simp [entriesOf]
  | some h =>
    have hk := h.keys_nodup
    have : (entriesOf (some h)).map Prod.fst = h.keys := by
      simp [entriesOf, AList.keys, List.keys, List.map_map, Function.comp_def]
    rw [this]
    exact hk

theorem eq_singleton_of_nodup {α : Type} (x : α) :
    ∀ l : List α, l.Nodup → x ∈ l → (∀ y ∈ l, y = x) → l = [x] := by
  intro l hnd hx hall
  cases l with
  | nil => simp at hx
  | cons a t =>
    have ha : a = x := hall a (List.mem_cons_self _ _)
    subst ha
    cases t with
    | nil => rfl
    | cons c t2 =>
      have hc : c = a := hall c (List.mem_cons_of_mem _ (List.mem_cons_self _ _))
      subst hc
      simp at hnd

/-- When exactly one registered pattern matches, the last matching entry of
every iteration order is that pattern's entry. -/
theorem lastMatching_of_unique (w : World) (hooks : Option HookMap)
    (order : List (String × Responder)) (text p : String) (f : Responder)
    (hord : IsRangeOrder hooks order)
    (hp : lookupHook hooks p = some f)
    (hmatch : matched w p text = true)
    (huniq : ∀ e ∈ entriesOf hooks, matched w e.1 text = true → e.1 = p) :
    lastMatching w order text = some (p, f) := by
  have hmem : (p, f) ∈ entriesOf hooks := (mem_entriesOf_iff hooks p f).2 hp
  have hnd : (entriesOf hooks).Nodup := List.Nodup.of_map _ (entriesOf_keys_nodup hooks)
  have hfilt : (entriesOf hooks).filter (fun e => matched w e.1 text) = [(p, f)] := by
    apply eq_singleton_of_nodup
    · exact hnd.filter _
    · exact List.mem_filter.2 ⟨hmem, by simpa using hmatch⟩
    · intro y hy
      obtain ⟨hy1, hy2⟩ := List.mem_filter.1 hy
      have hk : y.1 = p := huniq y hy1 (by simpa using hy2)
      obtain ⟨k, v⟩ := y
      simp only at hk
      subst hk
      have hv : lookupHook hooks k = some v := (mem_entriesOf_iff hooks k v).1 hy1
      rw [hp] at hv
      simp only [Option.some.injEq] at hv
      rw [hv]
  have hperm : (order.filter (fun e => matched w e.1 text)).Perm [(p, f)] := by
    rw [← hfilt]
    exact List.Perm.filter _ hord
  unfold lastMatching
  rw [List.perm_singleton.1 hperm]
  rfl

/-! ## The inbound request adapter: `Handler` -/

/-- C1, as the code has it: for a POST request whose body decodes to a message
`m`, on a bot whose `Logger` is not nil, the handler calls the logger with `m`
exactly once and then `HandleMessage` with `m` exactly once when
`m.Sender_type` is not `bot` or `TrackBotMessages` is set; on every bot it
calls neither when `m.Sender_type` is `bot` and `TrackBotMessages` is not
set. -/
theorem Handler_post_decoded (w : World) (b : GroupMeBot)
    (order : List (String × Responder)) (req : Request) (m : InboundMessage)
    (hpost : req.Method = "POST") (hdec : w.Decode req.Body = (m, none)) :
    ((m.Sender_type ≠ "bot" ∨ b.TrackBotMessages = true) → b.Logger ≠ none →
      (∃ rest, (b.Handler w order req).events =
        Event.LogMessage m :: Event.HandleMessage m :: rest) ∧
      (b.Handler w order req).events =
        Event.LogMessage m :: (b.HandleMessage w order m).events ∧
      (b.Handler w order req).outcome = (b.HandleMessage w order m).outcome ∧
      logCalls (b.Handler w order req).events = [m] ∧
      handleCalls (b.Handler w order req).events = [m]) ∧
    ((m.Sender_type = "bot" ∧ b.TrackBotMessages = false) →
      (b.Handler w order req).events = [] ∧
      logCalls (b.Handler w order req).events = [] ∧
      handleCalls (b.Handler w order req).events = [] ∧
      (b.Handler w order req).outcome = Outcome.returned ()) := by
  obtain ⟨⟨rest, hrest⟩, hhandle, hlogs⟩ := HandleMessage_calls w b order m
  constructor
  · intro hgate hlogger
    obtain ⟨lg, hlog⟩ := Option.ne_none_iff_exists'.1 hlogger
    have hrun : b.Handler w order req =
        { events := Event.LogMessage m :: (b.HandleMessage w order m).events,
          outcome := (b.HandleMessage w order m).outcome } := by
      unfold GroupMeBot.Handler
      simp only [hpost, hdec, if_true, hlog]
      rw [if_pos hgate]
    refine ⟨⟨rest, ?_⟩, ?_, ?_, ?_, ?_⟩
    · rw [hrun, hrest]
    · rw [hrun]
    · rw [hrun]
    · rw [hrun]
      simp only [logCalls, hlogs]
    · rw [hrun]
      simp only [handleCalls, hhandle]
  · rintro ⟨hbot, htrack⟩
    have hrun : b.Handler w order req = { events := [], outcome := Outcome.returned () } := by
      unfold GroupMeBot.Handler
      simp only [hpost, hdec, if_true]
      rw [if_neg (by simp [hbot, htrack])]
    rw [hrun]
    exact ⟨rfl, rfl, rfl, rfl⟩

/-- Witness of C1: the example bot receives `hi there` from a user, which it
logs and dispatches, and from a bot, which it drops. -/
theorem Handler_post_decoded_witness :
    (logCalls (exampleBot.Handler exampleWorld (entriesOf exampleBot.Hooks)
      { Method := "POST", Body := userBody }).events = [hiThere] ∧
     handleCalls (exampleBot.Handler exampleWorld (entriesOf exampleBot.Hooks)
      { Method := "POST", Body := userBody }).events = [hiThere]) ∧
    (exampleBot.Handler exampleWorld (entriesOf exampleBot.Hooks)
      { Method := "POST", Body := botBody }).events = [] :=
  have h1 := (Handler_post_decoded exampleWorld exampleBot (entriesOf exampleBot.Hooks)
    { Method := "POST", Body := userBody } hiThere rfl rfl).1
      (Or.inl (by decide)) (by simp [exampleBot])
  have h2 := (Handler_post_decoded exampleWorld exampleBot (entriesOf exampleBot.Hooks)
    { Method := "POST", Body := botBody } botHiThere rfl rfl).2 ⟨rfl, rfl⟩
  ⟨⟨h1.2.2.2.1, h1.2.2.2.2⟩, h2.1⟩

/-- Counterexample to C1 as stated: the bot that `ConfigureFromJson` returns
from the zero value of the struct has a nil `Logger`; on a POST whose body
decodes to a message of a user the gate is passed, the call of `LogMessage`
panics, and neither the logger nor `HandleMessage` is called. -/
theorem Handler_nil_logger_panics :
    zeroBot.ConfigureFromJson exampleWorld "bot_cfg.json" =
      Outcome.returned (configuredBot, none) ∧
    configuredBot.Logger = none ∧
    ({ Method := "POST", Body := userBody } : Request).Method = "POST" ∧
    exampleWorld.Decode userBody = (hiThere, none) ∧
    hiThere.Sender_type ≠ "bot" ∧
    logCalls (configuredBot.Handler exampleWorld (entriesOf configuredBot.Hooks)
      { Method := "POST", Body := userBody }).events = [] ∧
    handleCalls (configuredBot.Handler exampleWorld (entriesOf configuredBot.Hooks)
      { Method := "POST", Body := userBody }).events = [] ∧
    (configuredBot.Handler exampleWorld (entriesOf configuredBot.Hooks)
      { Method := "POST", Body := userBody }).outcome = Outcome.panic :=
  ⟨rfl, rfl, rfl, rfl, by decide, rfl, rfl, rfl⟩

/-- C2: for a request whose method is not POST the handler calls neither the
logger nor `HandleMessage`, sends nothing, and returns. -/
theorem Handler_ignores_non_post (w : World) (b : GroupMeBot)
    (order : List (String × Responder)) (req : Request)
    (hmethod : req.Method ≠ "POST") :
    (b.Handler w order req).events = [] ∧
    logCalls (b.Handler w order req).events = [] ∧
    handleCalls (b.Handler w order req).events = [] ∧
    sendCalls (b.Handler w order req).events = [] ∧
    posts (b.Handler w order req).events = [] ∧
    (b.Handler w order req).outcome = Outcome.returned () := by
  have hrun : b.Handler w order req = { events := [], outcome := Outcome.returned () } := by
    unfold GroupMeBot.Handler
    rw [if_neg hmethod]
  rw [hrun]
  exact ⟨rfl, rfl, rfl, rfl, rfl, rfl⟩

/-- Witness of C2: a GET request with the body of a user's message. -/
theorem Handler_ignores_non_post_witness :
    ({ Method := "GET", Body := userBody } : Request).Method ≠ "POST" ∧
    (exampleBot.Handler exampleWorld (entriesOf exampleBot.Hooks)
      { Method := "GET", Body := userBody }).events = [] :=
  ⟨by decide,
   (Handler_ignores_non_post exampleWorld exampleBot (entriesOf exampleBot.Hooks)
      { Method := "GET", Body := userBody } (by decide)).1⟩

/-- C3, as the code has it: for a POST request whose body fails to decode, on a
bot whose `TrackBotMessages` is not set, the handler calls neither the logger
nor `HandleMessage` and returns normally. -/
theorem Handler_decode_failure_untracked (w : World) (b : GroupMeBot)
    (order : List (String × Responder)) (req : Request) (e : String)
    (hpost : req.Method = "POST") (hdec : (w.Decode req.Body).2 = some e)
    (htrack : b.TrackBotMessages = false) :
    (b.Handler w order req).events = [] ∧
    logCalls (b.Handler w order req).events = [] ∧
    handleCalls (b.Handler w order req).events = [] ∧
    (b.Handler w order req).outcome = Outcome.returned () := by
  have hrun : b.Handler w order req = { events := [], outcome := Outcome.returned () } := by
    unfold GroupMeBot.Handler
    simp only [hpost, hdec, if_true, htrack]
    rw [if_neg (by simp)]
  rw [hrun]
  exact ⟨rfl, rfl, rfl, rfl⟩

/-- Witness of C3 as amended: the example bot receives a body that is not JSON. -/
theorem Handler_decode_failure_untracked_witness :
    (exampleWorld.Decode "garbage").2 = some "invalid character" ∧
    exampleBot.TrackBotMessages = false ∧
    (exampleBot.Handler exampleWorld (entriesOf exampleBot.Hooks)
      { Method := "POST", Body := "garbage" }).events = [] :=
  ⟨rfl, rfl,
   (Handler_decode_failure_untracked exampleWorld exampleBot (entriesOf exampleBot.Hooks)
      { Method := "POST", Body := "garbage" } "invalid character" rfl rfl rfl).1⟩

/-- Counterexample to C3 as stated: on a bot whose `TrackBotMessages` is set, a
POST request whose body fails to decode reaches both the logger and
`HandleMessage`, with the message whose `Sender_type` was forced to `bot`. -/
theorem Handler_decode_failure_tracked :
    ({ Method := "POST", Body := "garbage" } : Request).Method = "POST" ∧
    (exampleWorld.Decode "garbage").2 = some "invalid character" ∧
    logCalls (trackingBot.Handler exampleWorld (entriesOf trackingBot.Hooks)
      { Method := "POST", Body := "garbage" }).events =
        [{ zeroMessage with Sender_type := "bot" }] ∧
    handleCalls (trackingBot.Handler exampleWorld (entriesOf trackingBot.Hooks)
      { Method := "POST", Body := "garbage" }).events =
        [{ zeroMessage with Sender_type := "bot" }] :=
  ⟨rfl, rfl, rfl, rfl⟩

/-! ## The dispatcher: `HandleMessage` -/

/-- C5: when every pattern of the registry compiles and exactly one registered
pattern `p` matches the text, its responder returning a non-empty string,
`HandleMessage` performs exactly one send, with that string and nil
attachments, in every iteration order. -/
theorem HandleMessage_single_match (w : World) (b : GroupMeBot)
    (order : List (String × Responder)) (msg : InboundMessage)
    (p : String) (f : Responder)
    (hord : IsRangeOrder b.Hooks order)
    (hall : ∀ e ∈ entriesOf b.Hooks, compiles w e.1 = true)
    (hp : lookupHook b.Hooks p = some f)
    (hmatch : matched w p msg.Text = true)
    (huniq : ∀ e ∈ entriesOf b.Hooks, matched w e.1 msg.Text = true → e.1 = p)
    (hne : f msg ≠ "") :
    sendCalls (b.HandleMessage w order msg).events = [(f msg, none)] ∧
    posts (b.HandleMessage w order msg).events =
      [("https://api.groupme.com/v3/bots/post", "application/json",
        textPayload b (f msg))] ∧
    (b.HandleMessage w order msg).events =
      [Event.HandleMessage msg, Event.SendMessage (f msg) none,
       Event.Post "https://api.groupme.com/v3/bots/post" "application/json"
        (textPayload b (f msg))] := by
  have hall2 : ∀ e ∈ order, compiles w e.1 = true :=
    fun e he => hall e (hord.mem_iff.1 he)
  have hlast := lastMatching_of_unique w b.Hooks order msg.Text p f hord hp hmatch huniq
  have hloop : rangeHooks w msg order "" = some (f msg) := by
    rw [rangeHooks_of_compiles w msg order "" hall2, hlast]
  have hev := HandleMessage_events_of_loop w b order msg _ hloop
  rw [if_neg hne] at hev
  rw [hev]
  exact ⟨rfl, rfl, rfl⟩

/-- Witness of C5, the example of the specification: with the registry `^hi`
answering `hello` and `bye$` answering `goodbye`, the text `hi there` gives
exactly one send, of `hello`, in both iteration orders. -/
theorem HandleMessage_single_match_witness :
    sendCalls (exampleBot.HandleMessage exampleWorld
      [("^hi", sayHello), ("bye$", sayGoodbye)] hiThere).events = [("hello", none)] ∧
    sendCalls (exampleBot.HandleMessage exampleWorld
      [("bye$", sayGoodbye), ("^hi", sayHello)] hiThere).events = [("hello", none)] :=
  ⟨(HandleMessage_single_match exampleWorld exampleBot
      [("^hi", sayHello), ("bye$", sayGoodbye)] hiThere "^hi" sayHello
      (List.Perm.swap _ _ _) (by decide) rfl (by decide) (by decide) (by decide)).1,
   (HandleMessage_single_match exampleWorld exampleBot
      [("bye$", sayGoodbye), ("^hi", sayHello)] hiThere "^hi" sayHello
      (List.Perm.refl _) (by decide) rfl (by decide) (by decide) (by decide)).1⟩

/-- C7: the message `SendMessage` builds and serializes carries the bot's `ID`,
the given text and the given attachments; with a nil attachments argument the
attachments are the empty list, written as an empty array and not as null. -/
theorem SendMessage_builds_payload (w : World) (b : GroupMeBot) (t : String)
    (atts : Option (GoSlice Attachment)) :
    (∃ msg : OutboundMessage,
      msg.ID = b.ID ∧ msg.Text = t ∧
      msg.Attachments = (match atts with
        | some s => s
        | none => some []) ∧
      (Marshal msg).2 = none ∧
      (b.SendMessage w t atts).events =
        [Event.SendMessage t atts,
         Event.Post "https://api.groupme.com/v3/bots/post" "application/json"
          (Marshal msg).1] ∧
      (Marshal msg).1 = Json.obj [("bot_id", Json.str b.ID), ("text", Json.str t),
        ("attachments", marshalAttachments msg.Attachments)]) ∧
    posts (b.SendMessage w t none).events =
      [("https://api.groupme.com/v3/bots/post", "application/json",
        Json.obj [("bot_id", Json.str b.ID), ("text", Json.str t),
          ("attachments", Json.arr [])])] ∧
    Json.field "attachments" (Json.obj [("bot_id", Json.str b.ID), ("text", Json.str t),
      ("attachments", Json.arr [])]) = some (Json.arr []) ∧
    Json.arr [] ≠ Json.null := by
  refine ⟨⟨{ ID := b.ID, Text := t, Attachments := atts.getD (some []) }, rfl, rfl, ?_, rfl,
    SendMessage_events w b t atts, rfl⟩, ?_, ?_, ?_⟩
  · cases atts <;> rfl
  · rw [SendMessage_events w b t none]
    rfl
  · simp [Json.field]
  · intro h
    cases h

/-! ## The registry: `AddHook` -/

/-- C9: on a bot whose registry is initialised, `AddHook p f` returns; after it
the lookup of `p` yields `f`, the lookup of every other pattern is unchanged,
and no other field of the bot changes. -/
theorem AddHook_sets_only_pattern (b : GroupMeBot) (h : HookMap) (p : String) (f : Responder)
    (hinit : b.Hooks = some h) :
    ∃ b1, b.AddHook p f = Outcome.returned b1 ∧
      lookupHook b1.Hooks p = some f ∧
      (∀ q, q ≠ p → lookupHook b1.Hooks q = lookupHook b.Hooks q) ∧
      b1.ID = b.ID ∧ b1.GroupID = b.GroupID ∧ b1.Host = b.Host ∧ b1.Port = b.Port ∧
      b1.TrackBotMessages = b.TrackBotMessages ∧ b1.Server = b.Server ∧
      b1.Logger = b.Logger := by
  refine ⟨{ b with Hooks := some (h.insert p f) }, ?_, ?_, ?_, rfl, rfl, rfl, rfl, rfl, rfl, rfl⟩
  · unfold GroupMeBot.AddHook
    rw [hinit]
  · simp only [lookupHook]
    exact AList.lookup_insert h
  · intro q hq
    simp only [lookupHook, hinit]
    exact AList.lookup_insert_ne hq

/-- Witness of C9: the responder of `^hi` is replaced in the example bot; the
entry of `bye$` stays. -/
theorem AddHook_sets_only_pattern_witness :
    exampleBot.Hooks = some exampleHooks ∧
    ∃ b1, exampleBot.AddHook "^hi" sayGoodbye = Outcome.returned b1 ∧
      lookupHook b1.Hooks "^hi" = some sayGoodbye ∧
      lookupHook b1.Hooks "bye$" = lookupHook exampleBot.Hooks "bye$" ∧
      b1.Server = "localhost:8080" :=
  ⟨rfl,
   match AddHook_sets_only_pattern exampleBot exampleHooks "^hi" sayGoodbye rfl with
   | ⟨b1, h1, h2, h3, _, _, _, _, _, h9, _⟩ => ⟨b1, h1, h2, h3 "bye$" (by decide), h9⟩⟩

/-! ## Configuration: `ConfigureFromJson` -/

/-- C10: when the configuration file can be read, `ConfigureFromJson` returns
(with a nil error); the bot then has the `Host` and `Port` left by the
loading, `Server` is `Host`, a colon, `Port`, and `Hooks` is an empty
registry whatever was registered before. -/
theorem ConfigureFromJson_readable (w : World) (b : GroupMeBot) (filename file : String)
    (hread : w.ReadFile filename = .ok file) :
    ∃ b1, b.ConfigureFromJson w filename = Outcome.returned (b1, none) ∧
      b1.Host = (w.Unmarshal file b).1.Host ∧
      b1.Port = (w.Unmarshal file b).1.Port ∧
      b1.Server = b1.Host ++ ":" ++ b1.Port ∧
      b1.Hooks = some ∅ ∧
      entriesOf b1.Hooks = [] ∧
      (∀ p, lookupHook b1.Hooks p = none) := by
  refine ⟨{ (w.Unmarshal file b).1 with
      Server := (w.Unmarshal file b).1.Host ++ ":" ++ (w.Unmarshal file b).1.Port,
      Hooks := some ∅ }, ?_, rfl, rfl, rfl, rfl, rfl, ?_⟩
  · unfold GroupMeBot.ConfigureFromJson
    rw [hread]
  · intro p
    simp [lookupHook]

/-- Witness of C10: the example bot, with its two hooks, loads the example
configuration file. -/
theorem ConfigureFromJson_readable_witness :
    exampleWorld.ReadFile "bot_cfg.json" = .ok cfgText ∧
    lookupHook exampleBot.Hooks "^hi" = some sayHello ∧
    ∃ b1, exampleBot.ConfigureFromJson exampleWorld "bot_cfg.json" =
        Outcome.returned (b1, none) ∧
      b1.Server = b1.Host ++ ":" ++ b1.Port ∧
      lookupHook b1.Hooks "^hi" = none :=
  ⟨rfl, rfl,
   match ConfigureFromJson_readable exampleWorld exampleBot "bot_cfg.json" cfgText rfl with
   | ⟨b1, h1, _, _, h4, _, _, h7⟩ => ⟨b1, h1, h4, h7 "^hi"⟩⟩

/-- A configuration file that cannot be read ends the process in `log.Fatal`. -/
theorem ConfigureFromJson_unreadable (w : World) (b : GroupMeBot) (filename e : String)
    (hread : w.ReadFile filename = .error e) :
    b.ConfigureFromJson w filename = Outcome.fatal := by
  unfold GroupMeBot.ConfigureFromJson
  rw [hread]

/-- C8, the code at a file that is read but is not JSON: `json.Unmarshal`
reports an error, the code drops it, and `ConfigureFromJson` returns a nil
error and a bot with `Server` and `Hooks` set from the unloaded fields. -/
theorem ConfigureFromJson_unparseable_returns :
    exampleWorld.ReadFile "broken.json" = .ok "not json" ∧
    (exampleWorld.Unmarshal "not json" zeroBot).2 = some "invalid character" ∧
    zeroBot.ConfigureFromJson exampleWorld "broken.json" =
      Outcome.returned ({ zeroBot with Server := ":", Hooks := some ∅ }, none) ∧
    zeroBot.ConfigureFromJson exampleWorld "broken.json" ≠ Outcome.fatal := by
  refine ⟨rfl, rfl, rfl, ?_⟩
  intro h
  cases h

end Groupmebot
